import Mathlib

/-!
Shallow embedding of the rhythm-game simulation core of `src/main.ts`
(Hero_guitar_game): the `State` record, the per-tick physics (`tick`) and the
action set (`ButtonClick`, `ButtonRelease`, `TickGame`, `GameEnd`, `NextNote`,
`RandomiseNotes`).  JavaScript numbers are modelled as `Rat`; the state fields
that only ever hold integral values (`bonusActive`, `noteCount`, `scoreGained`)
are modelled as `Int` and `tickInterval` as `Nat`.  The JavaScript
double-tilde operator (truncation toward zero) is modelled by `jsTrunc`, and
`Math.floor` by `Int.floor` on `Rat`.
-/

namespace HeroGuitar

/-- Modelled from the spec: the deterministic PRNG `RNG` imported from
`./util.ts` is not part of the sources.  The spec gives only its contract
(`hash(seed)` deterministically advances the seed; `scale(seed)` derives a
sample in `[0,1)` from a seed without advancing it), so the whole development
is parametric in the two functions. -/
structure RNGModel where
  hash : Nat → Nat
  scale : Nat → Rat

/-- JavaScript `~~x`: truncation toward zero. -/
def jsTrunc (q : Rat) : Int :=
  if q < 0 then -Int.floor (-q) else Int.floor q

namespace Constants

def TICK_UNIT_INCREMENT : Rat := 1

def TICK_RATE_MS : Rat := 7

def POSITION_THRESHOLD : Rat := 40

def BOTTOM_ROW : Rat := 350

def BONUS_NOTES_PERCENTAGE : Int := 90

end Constants

structure Tail where
  tailStart : Rat
  tailEnd : Rat
  dead : Bool
deriving DecidableEq, Repr

structure Note where
  id : Nat
  special : Bool
  visual : Bool
  position : Rat
  column : Nat
  instrumentName : String
  velocity : Int
  pitch : Int
  start : Rat
  «end» : Rat
  tail : Option Tail
deriving DecidableEq, Repr

structure State where
  gameEnd : Bool
  allNotesProcessed : Bool
  bonusActive : Int
  tickInterval : Nat
  hash : Nat
  noteCount : Int
  scoreGained : Int
  currentNotes : List Note
  RIPNotes : List Note
  playableNotes : List Note
deriving DecidableEq, Repr

def initialState (rng : RNGModel) : State :=
  { gameEnd := false
    allNotesProcessed := false
    bonusActive := 0
    tickInterval := 0
    hash := rng.hash 3847589
    noteCount := 0
    scoreGained := 0
    currentNotes := []
    RIPNotes := []
    playableNotes := [] }

/-! ## The per-tick physics (`tick` in the source)

In the source `updateTail` and `updateNotePosition` are local functions of
`tick`; they are lifted to top-level definitions here. -/

def updateTail (positionIncrement bottomRow : Rat) (tail : Tail) (visual : Bool) : Tail :=
  { tailStart := tail.tailStart + positionIncrement
    tailEnd := if visual then tail.tailEnd + positionIncrement else bottomRow
    dead := if visual then false else tail.dead }

/-- One physics step for a single note; returns the pair
(updated continuing note, note to emit as playable), each optional. -/
def updateNotePosition (positionIncrement bottomRow : Rat) (note : Note) :
    Option Note × Option Note :=
  let newY := note.position + positionIncrement
  match note.tail with
  | some t =>
      let updatedTail := updateTail positionIncrement bottomRow t note.visual
      let updatedNote : Note := { note with position := newY, tail := some updatedTail }
      if note.visual then
        if updatedTail.tailEnd = bottomRow then
          if updatedTail.tailStart < bottomRow then
            (some
              { updatedNote with
                  visual := false,
                  tail := some { updatedTail with dead := true } },
             none)
          else (none, none)
        else
          if updatedTail.tailStart < bottomRow then (some updatedNote, none)
          else (none, none)
      else
        if newY = bottomRow then (some updatedNote, some updatedNote)
        else
          if updatedTail.tailStart < bottomRow then (some updatedNote, none)
          else (none, none)
  | none =>
      if newY ≤ bottomRow then
        if note.visual then
          if newY < bottomRow then (some { note with position := newY }, none)
          else (none, none)
        else
          if newY < bottomRow then (some { note with position := newY }, none)
          else (none, some { note with position := newY })
      else (none, none)

/-- The body of the reduce in `tick` that partitions the advanced notes into
the new `currentNotes` (first component) and `playableNotes` (second). -/
def tickStep (acc : List Note × List Note) (note : Note) : List Note × List Note :=
  let r := updateNotePosition Constants.TICK_UNIT_INCREMENT Constants.BOTTOM_ROW note
  (match r.1 with
   | some updatedNote => acc.1 ++ [updatedNote]
   | none => acc.1,
   match r.2 with
   | some playableNote => acc.2 ++ [playableNote]
   | none => acc.2)

/-- `filterCheck` in `tick`: a still-visual note sitting one increment above
the bottom row after the step. -/
def filterCheck (note : Note) : Bool :=
  decide (note.position + 1 = Constants.BOTTOM_ROW) && note.visual

/-- The destructured result of the reduce in `tick`: the pair
`(newCurrentNotes, newPlayableNotes)`. -/
def tickResult (s : State) : List Note × List Note :=
  s.currentNotes.foldl tickStep ([], [])

def tick (s : State) : State :=
  { s with
    gameEnd := s.allNotesProcessed &&
      decide ((tickResult s).1.length = 0) &&
      decide ((tickResult s).2.length = 0) &&
      decide (s.RIPNotes.length = 0)
    currentNotes := (tickResult s).1
    noteCount :=
      if ((tickResult s).1.filter filterCheck).length = 0
      then s.noteCount else s.bonusActive
    RIPNotes := s.currentNotes
    playableNotes := (tickResult s).2 }

/-! ## ButtonRelease -/

/-- The condition checked three times inside `ButtonRelease.apply`:
a sustain tail of the pressed column that is still held and not yet dead. -/
def releaseMatch (column : Nat) (note : Note) : Bool :=
  match note.tail with
  | some t => (note.column == column) && !note.visual && !t.dead
  | none => false

/-- The per-tail penalty `1 + 0.2 * Math.floor(s.noteCount / 10)`. -/
def releasePenalty (noteCount : Int) : Rat :=
  1 + (1 / 5) * ((Int.floor ((noteCount : Rat) / 10) : Int) : Rat)

def markDead (note : Note) : Note :=
  match note.tail with
  | some t => { note with tail := some { t with dead := true } }
  | none => note

def ButtonRelease.apply (column : Nat) (s : State) : State :=
  let scoreGainedModified : Rat := s.currentNotes.foldl
    (fun acc note =>
      if releaseMatch column note then acc - releasePenalty s.noteCount else acc)
    ((s.scoreGained : Rat))
  let noteCountModification : Int := s.currentNotes.foldl
    (fun acc note => if releaseMatch column note then s.bonusActive else acc)
    s.noteCount
  let currentNotes := s.currentNotes.map
    (fun note => if releaseMatch column note then markDead note else note)
  { s with
    currentNotes := currentNotes
    noteCount := noteCountModification
    scoreGained := jsTrunc scoreGainedModified
    RIPNotes := s.currentNotes }

/-! ## ButtonClick -/

/-- The hit-window test of `ButtonClick.apply`: a visual note of the pressed
column with position in `[BOTTOM_ROW - POSITION_THRESHOLD, BOTTOM_ROW)`. -/
def clickMatch (column : Nat) (note : Note) : Bool :=
  decide (note.position ≥ Constants.BOTTOM_ROW - Constants.POSITION_THRESHOLD) &&
  decide (note.position < Constants.BOTTOM_ROW) &&
  (note.column == column) && note.visual

structure Accumulator where
  triggered : Bool
  scoreGained : Rat
  notePressed : Int
  specialGained : Int
deriving DecidableEq, Repr

/-- The branch of the reduce in `ButtonClick.apply` taken for a matched note. -/
def clickInner (acc : Accumulator) (note : Note) : Accumulator :=
  if note.special then
    { acc with triggered := true
               specialGained := acc.specialGained + 100
               notePressed := acc.notePressed + 100 }
  else
    { acc with triggered := true
               notePressed := acc.notePressed + 1
               scoreGained := acc.scoreGained +
                 (1 + (1 / 5) * ((jsTrunc ((acc.notePressed : Rat) / 10) : Int) : Rat)) }

def clickScan (column : Nat) (s : State) : Accumulator :=
  s.currentNotes.foldl
    (fun acc note => if clickMatch column note then clickInner acc note else acc)
    { triggered := false
      scoreGained := (s.scoreGained : Rat)
      notePressed := s.noteCount
      specialGained := s.bonusActive }

def instrumentList : List String :=
  ["piano", "violin", "flute", "saxophone", "trumpet", "bass-electric"]

def defaultInstrument : String := ""

/-- The synthetic "wrong press" note.  In the TS source the object literal
omits `id`, `special`, `visual`, `position`, `column` and `tail` (they are
`undefined` behind the `as Note` cast and are never read); the embedding fills
those fields with inert defaults. -/
def wrongNote (rng : RNGModel) (hash : Nat) : Note :=
  { id := 0
    special := false
    visual := false
    position := 0
    column := 0
    instrumentName := instrumentList.getD
      (jsTrunc (rng.scale hash * (instrumentList.length : Rat))).toNat
      defaultInstrument
    velocity := jsTrunc (rng.scale hash * 90)
    pitch := jsTrunc (rng.scale hash * 70)
    start := 0
    «end» := ((jsTrunc (rng.scale hash * 500) : Int) : Rat)
    tail := none }

/-- The filter in `checkWrongPress`: a non-visual note of the pressed column
with a defined tail (its `dead` flag is not consulted). -/
def sustainBlock (column : Nat) (note : Note) : Bool :=
  (note.column == column) && !note.visual && note.tail.isSome

def ButtonClick.apply (rng : RNGModel) (column : Nat) (s : State) : State :=
  let triggered := clickScan column s
  let currentNotes := s.currentNotes.map
    (fun note =>
      if clickMatch column note then { note with visual := false } else note)
  let checkWrongPress : Bool :=
    !triggered.triggered &&
      decide ((currentNotes.filter (sustainBlock column)).length = 0)
  { s with
    bonusActive := triggered.specialGained
    currentNotes := currentNotes
    noteCount := if checkWrongPress then s.bonusActive else triggered.notePressed
    hash := rng.hash s.hash
    RIPNotes := s.currentNotes
    scoreGained := jsTrunc triggered.scoreGained
    playableNotes :=
      if checkWrongPress then s.playableNotes ++ [wrongNote rng s.hash]
      else s.playableNotes }

/-! ## TickGame -/

/-- `~~(2000 / Constants.TICK_RATE_MS)` = 285, the decay cycle length. -/
def decayPeriod : Nat := (jsTrunc ((2000 : Rat) / Constants.TICK_RATE_MS)).toNat

def TickGame.apply (s : State) : State :=
  let bonusFlag : Bool :=
    decide (s.bonusActive > 0) && decide (s.tickInterval ≠ 0) &&
      decide (s.tickInterval % decayPeriod = 0)
  let updatedStat := tick s
  { updatedStat with
    tickInterval :=
      if s.bonusActive > 0 ∧ (s.tickInterval = 0 ∨ s.tickInterval % decayPeriod ≠ 0)
      then s.tickInterval + 1
      else 0
    bonusActive := if bonusFlag then s.bonusActive - 50 else s.bonusActive
    noteCount := if bonusFlag then updatedStat.noteCount - 50 else updatedStat.noteCount }

/-! ## GameEnd, NextNote, RandomiseNotes -/

def GameEnd.apply (s : State) : State :=
  tick { s with allNotesProcessed := true }

/-- The map applied to a freshly spawned batch inside `NextNote.apply`.
In the TS source the tail literal omits `dead` (it is `undefined`, which every
later read treats as falsy), so the embedding sets `dead := false`. -/
def spawnTransform (rng : RNGModel) (hash : Nat) (note : Note) : Note :=
  let duration := note.«end» - note.start
  if note.visual && decide (duration > 1000) then
    let tailLength := duration / Constants.TICK_RATE_MS
    { note with tail := some { tailStart := note.position - tailLength
                               tailEnd := note.position
                               dead := false } }
  else
    { note with
        special := decide (jsTrunc (rng.scale hash * 100) ≥ Constants.BONUS_NOTES_PERCENTAGE)
        tail := none }

def NextNote.apply (rng : RNGModel) (notes : List Note) (s : State) : State :=
  let notesWithTail := notes.map (spawnTransform rng s.hash)
  tick { s with hash := rng.hash s.hash
                currentNotes := s.currentNotes ++ notesWithTail }

/-- Index-passing map, mirroring the `(note, idx)` callback of
`RandomiseNotes.apply`. -/
def mapWithIndex (f : Nat → Note → Note) : Nat → List Note → List Note
  | _, [] => []
  | i, note :: rest => f i note :: mapWithIndex f (i + 1) rest

def randomTransform (rng : RNGModel) (hash : Nat) (idx : Nat) (note : Note) : Note :=
  if note.visual then
    { note with column := (jsTrunc (rng.scale (rng.hash (hash + idx)) * 4)).toNat }
  else note

def RandomiseNotes.apply (rng : RNGModel) (s : State) : State :=
  { s with
    hash := rng.hash s.hash
    currentNotes := mapWithIndex (randomTransform rng s.hash) 0 s.currentNotes }

/-! ## The closed action set and reachability -/

inductive Action where
  | click (column : Nat)
  | release (column : Nat)
  | tickGame
  | nextNote (notes : List Note)
  | gameEnd
  | randomise

def Action.apply (rng : RNGModel) : Action → State → State
  | .click column, s => ButtonClick.apply rng column s
  | .release column, s => ButtonRelease.apply column s
  | .tickGame, s => TickGame.apply s
  | .nextNote notes, s => NextNote.apply rng notes s
  | .gameEnd, s => GameEnd.apply s
  | .randomise, s => RandomiseNotes.apply rng s

/-- States reachable by arbitrary action sequences (no restriction at all);
this is the reading under which claim C1 is stated. -/
inductive ReachableAny (rng : RNGModel) : State → Prop
  | init : ReachableAny rng (initialState rng)
  | step (a : Action) {s : State} : ReachableAny rng s → ReachableAny rng (a.apply rng s)

/-- Batches fed to `NextNote` by the chart scheduler consist of freshly parsed
notes, which all carry `position = 0`. -/
def spawnOk : Action → Prop
  | .nextNote notes => ∀ n ∈ notes, n.position = 0
  | _ => True

/-- States reachable in an actual game run: the driver stops feeding actions
once `gameEnd` holds, and every `NextNote` batch comes from the chart parser
(all positions 0). -/
inductive ReachableGame (rng : RNGModel) : State → Prop
  | init : ReachableGame rng (initialState rng)
  | step (a : Action) {s : State} : ReachableGame rng s → s.gameEnd = false →
      spawnOk a → ReachableGame rng (a.apply rng s)

/-- A concrete PRNG instance used for closed evaluations. -/
def rng0 : RNGModel := { hash := fun n => n + 1, scale := fun _ => 0 }

/-- A concrete note used as a base for closed evaluations. -/
def baseNote : Note :=
  { id := 1
    special := false
    visual := true
    position := 0
    column := 0
    instrumentName := "piano"
    velocity := 60
    pitch := 60
    start := 0
    «end» := 0
    tail := none }

/-! ### Concrete fixtures used by closed witnesses and counterexamples -/

/-- A visual normal note inside the hit window of column 0. -/
def hitNote : Note := { baseNote with position := 330 }

def oneNoteState : State := { initialState rng0 with currentNotes := [hitNote] }

def comboTenState : State := { oneNoteState with noteCount := 10 }

/-- A consumed sustain note whose tail has already been marked dead. -/
def deadTailNote : Note :=
  { baseNote with
      visual := false
      tail := some { tailStart := 0, tailEnd := 10, dead := true } }

def deadTailState : State := { initialState rng0 with currentNotes := [deadTailNote] }

/-- A consumed sustain note whose tail is still held (not dead). -/
def liveTailNote : Note :=
  { baseNote with
      visual := false
      tail := some { tailStart := 0, tailEnd := 10, dead := false } }

def liveTailState : State :=
  { initialState rng0 with
      currentNotes := [liveTailNote]
      scoreGained := 5
      noteCount := 10
      bonusActive := 77 }

def decayIdleState : State := { initialState rng0 with tickInterval := 7 }

def decayDrainState : State :=
  { initialState rng0 with bonusActive := 100, noteCount := 200, tickInterval := 285 }

/-- A non-visual (background) chart note of duration 1500ms. -/
def longBgNote : Note := { baseNote with visual := false, «end» := 1500 }

/-- A visual chart note of duration 1500ms. -/
def longVisNote : Note := { baseNote with «end» := 1500 }

def missState : State :=
  { initialState rng0 with
      currentNotes := [{ baseNote with position := 348 }]
      noteCount := 42
      bonusActive := 9 }

/-- Refinement side, following the amended claim C2's words: the
per-matched-note scoring step on the triple
(bonus pool, combo, fractional score accumulator) — a special note adds 100
to the bonus pool and the combo and contributes no score; a normal note adds
1 to the combo and `1 + 0.2 * ~~(combo / 10)` (combo before the increment) to
the accumulator.  The claim theorem compares the left fold of this step over
the matched notes with the source's `clickInner` fold. -/
def specClickStep (acc : Int × Int × Rat) (note : Note) : Int × Int × Rat :=
  if note.special = true then (acc.1 + 100, acc.2.1 + 100, acc.2.2)
  else (acc.1, acc.2.1 + 1,
    acc.2.2 + (1 + (1 / 5) * ((jsTrunc ((acc.2.1 : Rat) / 10) : Int) : Rat)))

/-- A second visual normal note inside the hit window of column 0. -/
def hitNote2 : Note := { baseNote with id := 2, position := 320 }

/-- A state whose single press matches two notes at once in column 0. -/
def twoNoteState : State :=
  { initialState rng0 with currentNotes := [hitNote, hitNote2] }

/-- The inductive invariant that drives the `gameEnd` claim: an empty
removed-notes report can only coexist with an empty live-note set, and an
ended state is entirely drained. -/
def Inv (s : State) : Prop :=
  (s.RIPNotes = [] → s.currentNotes = []) ∧
  (s.gameEnd = true →
    s.allNotesProcessed = true ∧ s.currentNotes = [] ∧ s.playableNotes = [] ∧
      s.RIPNotes = [])

/-! ## Helper lemmas -/

theorem jsTrunc_intCast (n : Int) : jsTrunc (n : Rat) = n := by
  unfold jsTrunc
  split
  · rw [show (-(n : Rat)) = ((-n : Int) : Rat) by push_cast; ring, Int.floor_intCast]
    omega
  · rw [Int.floor_intCast]

theorem foldl_if_filter {α β : Type} (p : α → Bool) (g : β → α → β) :
    ∀ (l : List α) (a : β),
      l.foldl (fun acc x => if p x then g acc x else acc) a = (l.filter p).foldl g a := by
  intro l
  induction l with
  | nil => intro a; rfl
  | cons x xs ih =>
      intro a
      by_cases h : p x <;> simp [List.filter_cons, h, ih]

theorem foldl_const_sub {α : Type} (c : Rat) :
    ∀ (l : List α) (a : Rat),
      l.foldl (fun acc _ => acc - c) a = a - (l.length : Rat) * c := by
  intro l
  induction l with
  | nil => intro a; simp
  | cons x xs ih =>
      intro a
      rw [List.foldl_cons, ih]
      simp only [List.length_cons]
      push_cast
      ring

theorem foldl_const_set {α : Type} (b : Int) :
    ∀ (l : List α) (a : Int),
      l.foldl (fun _ _ => b) a = if l.length = 0 then a else b := by
  intro l
  induction l with
  | nil => intro a; rfl
  | cons x xs ih =>
      intro a
      rw [List.foldl_cons, ih]
      rcases xs with _ | ⟨y, ys⟩ <;> simp

theorem map_if_not {α : Type} (p : α → Bool) (f : α → α) :
    ∀ l : List α, (∀ x ∈ l, p x = false) →
      l.map (fun x => if p x then f x else x) = l := by
  intro l
  induction l with
  | nil => intro _; rfl
  | cons x xs ih =>
      intro h
      have hx := h x (by simp)
      simp only [List.map_cons, hx, Bool.false_eq_true, if_false]
      rw [ih (fun y hy => h y (by simp [hy]))]

/-! ### Characterizing the tick fold -/

theorem tickStep_eq (a b : List Note) (n : Note) :
    tickStep (a, b) n =
      (a ++ ((updateNotePosition Constants.TICK_UNIT_INCREMENT Constants.BOTTOM_ROW n).1).toList,
       b ++ ((updateNotePosition Constants.TICK_UNIT_INCREMENT Constants.BOTTOM_ROW n).2).toList) := by
  unfold tickStep
  cases h1 : (updateNotePosition Constants.TICK_UNIT_INCREMENT Constants.BOTTOM_ROW n).1 <;>
    cases h2 : (updateNotePosition Constants.TICK_UNIT_INCREMENT Constants.BOTTOM_ROW n).2 <;>
      simp [h1, h2]

theorem foldl_tickStep :
    ∀ (l : List Note) (a b : List Note),
      l.foldl tickStep (a, b) =
        (a ++ l.filterMap
          (fun n => (updateNotePosition Constants.TICK_UNIT_INCREMENT Constants.BOTTOM_ROW n).1),
         b ++ l.filterMap
          (fun n => (updateNotePosition Constants.TICK_UNIT_INCREMENT Constants.BOTTOM_ROW n).2)) := by
  intro l
  induction l with
  | nil => intro a b; simp
  | cons x xs ih =>
      intro a b
      rw [List.foldl_cons, tickStep_eq, ih]
      cases h1 : (updateNotePosition Constants.TICK_UNIT_INCREMENT Constants.BOTTOM_ROW x).1 <;>
        cases h2 : (updateNotePosition Constants.TICK_UNIT_INCREMENT Constants.BOTTOM_ROW x).2 <;>
          simp [List.filterMap_cons, h1, h2]

theorem tick_currentNotes (s : State) :
    (tick s).currentNotes = s.currentNotes.filterMap
      (fun n => (updateNotePosition Constants.TICK_UNIT_INCREMENT Constants.BOTTOM_ROW n).1) := by
  show (tickResult s).1 = _
  unfold tickResult
  rw [foldl_tickStep]
  simp

theorem tick_playableNotes (s : State) :
    (tick s).playableNotes = s.currentNotes.filterMap
      (fun n => (updateNotePosition Constants.TICK_UNIT_INCREMENT Constants.BOTTOM_ROW n).2) := by
  show (tickResult s).2 = _
  unfold tickResult
  rw [foldl_tickStep]
  simp

theorem tick_RIPNotes (s : State) : (tick s).RIPNotes = s.currentNotes := rfl

theorem tick_allNotesProcessed (s : State) :
    (tick s).allNotesProcessed = s.allNotesProcessed := rfl

theorem tick_scoreGained (s : State) : (tick s).scoreGained = s.scoreGained := rfl

theorem tick_gameEnd_eq_true (s : State) (h : (tick s).gameEnd = true) :
    s.allNotesProcessed = true ∧ (tick s).currentNotes = [] ∧
      (tick s).playableNotes = [] ∧ s.RIPNotes = [] := by
  have hx : (s.allNotesProcessed &&
      decide ((tickResult s).1.length = 0) &&
      decide ((tickResult s).2.length = 0) &&
      decide (s.RIPNotes.length = 0)) = true := h
  simp only [Bool.and_eq_true, decide_eq_true_eq] at hx
  obtain ⟨⟨⟨h1, h2⟩, h3⟩, h4⟩ := hx
  exact ⟨h1, List.length_eq_zero.mp h2, List.length_eq_zero.mp h3,
    List.length_eq_zero.mp h4⟩

theorem tick_of_nil (s : State) (h : s.currentNotes = []) :
    (tick s).currentNotes = [] ∧ (tick s).playableNotes = [] := by
  rw [tick_currentNotes, tick_playableNotes, h]
  exact ⟨rfl, rfl⟩

/-! ### Branch lemmas for the single-note physics step -/

theorem upd_noTail_below (inc row : Rat) (n : Note) (ht : n.tail = none)
    (hlt : n.position + inc < row) :
    updateNotePosition inc row n = (some { n with position := n.position + inc }, none) := by
  unfold updateNotePosition
  rw [ht]
  have hle : n.position + inc ≤ row := le_of_lt hlt
  cases hv : n.visual <;> simp [hle, hlt, hv]

theorem upd_noTail_atRow_visual (inc row : Rat) (n : Note) (ht : n.tail = none)
    (heq : n.position + inc = row) (hv : n.visual = true) :
    updateNotePosition inc row n = (none, none) := by
  unfold updateNotePosition
  rw [ht]
  simp [heq, hv]

theorem upd_noTail_atRow_nonvisual (inc row : Rat) (n : Note) (ht : n.tail = none)
    (heq : n.position + inc = row) (hv : n.visual = false) :
    updateNotePosition inc row n = (none, some { n with position := n.position + inc }) := by
  unfold updateNotePosition
  rw [ht]
  simp [heq, hv]

theorem upd_tail_visual_keep (inc row : Rat) (n : Note) (t : Tail) (ht : n.tail = some t)
    (hv : n.visual = true)
    (hne : t.tailEnd + inc ≠ row) (hlt : t.tailStart + inc < row) :
    (updateNotePosition inc row n).1 =
      some { n with position := n.position + inc
                    tail := some (updateTail inc row t n.visual) } := by
  unfold updateNotePosition
  rw [ht, hv]
  have h1 : (updateTail inc row t true).tailEnd = t.tailEnd + inc := by
    simp [updateTail]
  have h2 : (updateTail inc row t true).tailStart = t.tailStart + inc := by
    simp [updateTail]
  simp [h1, h2, hne, hlt]

theorem updateNotePosition_fst_keeps (inc row : Rat) (q m : Note)
    (h : (updateNotePosition inc row q).1 = some m) :
    m.id = q.id ∧ (q.tail = none → m.tail = none) := by
  unfold updateNotePosition at h
  rcases hq : q.tail with _ | t <;> rw [hq] at h <;> simp only at h <;>
    split_ifs at h <;> simp_all <;> subst h <;> simp

/-! ### Spawn lemmas -/

theorem spawnTransform_id (rng : RNGModel) (h : Nat) (q : Note) :
    (spawnTransform rng h q).id = q.id := by
  unfold spawnTransform
  dsimp only
  split <;> rfl

theorem spawnTransform_tail_isSome (rng : RNGModel) (h : Nat) (q : Note)
    (ht : (spawnTransform rng h q).tail.isSome = true) :
    q.visual = true ∧ q.«end» - q.start > 1000 := by
  unfold spawnTransform at ht
  simp only at ht
  split at ht
  · next hc =>
      simp only [Bool.and_eq_true, decide_eq_true_eq] at hc
      exact hc
  · simp at ht

theorem spawn_survives (rng : RNGModel) (h : Nat) (q : Note) (hp : q.position = 0) :
    ∃ m, (updateNotePosition Constants.TICK_UNIT_INCREMENT Constants.BOTTOM_ROW
      (spawnTransform rng h q)).1 = some m := by
  by_cases hc : (q.visual && decide (q.«end» - q.start > 1000)) = true
  · have hsp : spawnTransform rng h q =
        { q with tail := some (Tail.mk
            (q.position - (q.«end» - q.start) / Constants.TICK_RATE_MS) q.position false) } := by
      unfold spawnTransform
      rw [if_pos hc]
    simp only [Bool.and_eq_true, decide_eq_true_eq] at hc
    rw [hsp]
    refine ⟨_, upd_tail_visual_keep _ _ _ _ rfl hc.1 ?_ ?_⟩
    · show q.position + Constants.TICK_UNIT_INCREMENT ≠ Constants.BOTTOM_ROW
      rw [hp]
      norm_num [Constants.TICK_UNIT_INCREMENT, Constants.BOTTOM_ROW]
    · show q.position - (q.«end» - q.start) / Constants.TICK_RATE_MS +
        Constants.TICK_UNIT_INCREMENT < Constants.BOTTOM_ROW
      rw [hp]
      have hd := hc.2
      unfold Constants.TICK_UNIT_INCREMENT Constants.BOTTOM_ROW Constants.TICK_RATE_MS
      nlinarith [hd]
  · have hsp : spawnTransform rng h q =
        { q with
            special := decide (jsTrunc (rng.scale h * 100) ≥ Constants.BONUS_NOTES_PERCENTAGE)
            tail := none } := by
      unfold spawnTransform
      rw [if_neg hc]
    rw [hsp]
    have hlt : q.position + Constants.TICK_UNIT_INCREMENT < Constants.BOTTOM_ROW := by
      rw [hp]
      norm_num [Constants.TICK_UNIT_INCREMENT, Constants.BOTTOM_ROW]
    exact ⟨_, by
      rw [upd_noTail_below Constants.TICK_UNIT_INCREMENT Constants.BOTTOM_ROW
        { q with
            special := decide (jsTrunc (rng.scale h * 100) ≥ Constants.BONUS_NOTES_PERCENTAGE)
            tail := none } rfl hlt]⟩

/-! ### Click lemmas -/

theorem clickInner_triggered (acc : Accumulator) (n : Note) :
    (clickInner acc n).triggered = true := by
  unfold clickInner
  split <;> rfl

theorem foldl_clickInner_triggered :
    ∀ (l : List Note) (acc : Accumulator), acc.triggered = true →
      (l.foldl clickInner acc).triggered = true := by
  intro l
  induction l with
  | nil => intro acc h; exact h
  | cons x xs ih =>
      intro acc _
      rw [List.foldl_cons]
      exact ih _ (clickInner_triggered acc x)

theorem clickScan_eq (c : Nat) (s : State) :
    clickScan c s = (s.currentNotes.filter (clickMatch c)).foldl clickInner
      { triggered := false
        scoreGained := (s.scoreGained : Rat)
        notePressed := s.noteCount
        specialGained := s.bonusActive } :=
  foldl_if_filter (clickMatch c) clickInner s.currentNotes _

theorem clickScan_triggered_of_match (c : Nat) (s : State)
    (h : s.currentNotes.filter (clickMatch c) ≠ []) :
    (clickScan c s).triggered = true := by
  rw [clickScan_eq]
  rcases hl : s.currentNotes.filter (clickMatch c) with _ | ⟨x, xs⟩
  · exact absurd hl h
  · rw [List.foldl_cons]
    exact foldl_clickInner_triggered xs _ (clickInner_triggered _ x)

theorem foldl_clickInner_spec :
    ∀ (l : List Note) (acc : Accumulator),
      ((l.foldl clickInner acc).specialGained,
       (l.foldl clickInner acc).notePressed,
       (l.foldl clickInner acc).scoreGained) =
        l.foldl specClickStep (acc.specialGained, acc.notePressed, acc.scoreGained) := by
  intro l
  induction l with
  | nil => intro acc; rfl
  | cons x xs ih =>
      intro acc
      rw [List.foldl_cons, List.foldl_cons, ih]
      congr 1
      by_cases hs : x.special = true <;> simp [clickInner, specClickStep, hs]

theorem clickMatch_false_of_not_visual (c : Nat) (n : Note) (h : n.visual = false) :
    clickMatch c n = false := by
  unfold clickMatch
  simp [h]

/-! ### Release and randomise lemmas -/

theorem markDead_id (n : Note) : (markDead n).id = n.id := by
  unfold markDead
  split <;> rfl

theorem markDead_tail_isSome (n : Note) : (markDead n).tail.isSome = n.tail.isSome := by
  unfold markDead
  split <;> simp_all

theorem mem_mapWithIndex (f : Nat → Note → Note) :
    ∀ (i : Nat) (l : List Note) (m : Note),
      m ∈ mapWithIndex f i l → ∃ p ∈ l, ∃ j, m = f j p := by
  intro i l
  induction l generalizing i with
  | nil => intro m hm; cases hm
  | cons x xs ih =>
      intro m hm
      simp only [mapWithIndex] at hm
      rcases List.mem_cons.mp hm with h | h
      · exact ⟨x, by simp, i, h⟩
      · rcases ih (i + 1) m h with ⟨p, hp, j, hj⟩
        exact ⟨p, by simp [hp], j, hj⟩

theorem forall2_mapWithIndex (f : Nat → Note → Note) (R : Note → Note → Prop)
    (hf : ∀ i n, R n (f i n)) :
    ∀ (i : Nat) (l : List Note), List.Forall₂ R l (mapWithIndex f i l) := by
  intro i l
  induction l generalizing i with
  | nil => exact List.Forall₂.nil
  | cons x xs ih =>
      simp only [mapWithIndex]
      exact List.Forall₂.cons (hf i x) (ih (i + 1))

theorem randomTransform_id (rng : RNGModel) (h i : Nat) (n : Note) :
    (randomTransform rng h i n).id = n.id := by
  unfold randomTransform
  split <;> rfl

theorem randomTransform_tail (rng : RNGModel) (h i : Nat) (n : Note) :
    (randomTransform rng h i n).tail = n.tail := by
  unfold randomTransform
  split <;> rfl

/-! ## Claim theorems -/

/-- Claim C7 (confirmed): for a note without a tail, one physics step keeps
the note (only its position incremented) while the new position is strictly
below the bottom boundary; at the boundary exactly, a non-visual note is
removed from the continuing notes and emitted as playable while a visual note
is removed and not emitted; and the physics step never changes the score. -/
theorem claim_C7 (n : Note) (ht : n.tail = none) :
    (n.position + Constants.TICK_UNIT_INCREMENT < Constants.BOTTOM_ROW →
      updateNotePosition Constants.TICK_UNIT_INCREMENT Constants.BOTTOM_ROW n =
        (some { n with position := n.position + Constants.TICK_UNIT_INCREMENT }, none)) ∧
    (n.position + Constants.TICK_UNIT_INCREMENT = Constants.BOTTOM_ROW → n.visual = false →
      updateNotePosition Constants.TICK_UNIT_INCREMENT Constants.BOTTOM_ROW n =
        (none, some { n with position := n.position + Constants.TICK_UNIT_INCREMENT })) ∧
    (n.position + Constants.TICK_UNIT_INCREMENT = Constants.BOTTOM_ROW → n.visual = true →
      updateNotePosition Constants.TICK_UNIT_INCREMENT Constants.BOTTOM_ROW n = (none, none)) ∧
    (∀ s : State, (tick s).scoreGained = s.scoreGained) :=
  ⟨fun h => upd_noTail_below _ _ n ht h,
   fun h hv => upd_noTail_atRow_nonvisual _ _ n ht h hv,
   fun h hv => upd_noTail_atRow_visual _ _ n ht h hv,
   fun _ => rfl⟩

theorem claim_C7_witness :
    updateNotePosition Constants.TICK_UNIT_INCREMENT Constants.BOTTOM_ROW
        { baseNote with position := 100 } =
      (some { baseNote with position := (100 : Rat) + Constants.TICK_UNIT_INCREMENT }, none) ∧
    updateNotePosition Constants.TICK_UNIT_INCREMENT Constants.BOTTOM_ROW
        { baseNote with position := 349, visual := false } =
      (none, some
        { baseNote with position := (349 : Rat) + Constants.TICK_UNIT_INCREMENT, visual := false }) :=
  ⟨(claim_C7 { baseNote with position := 100 } rfl).1
      (by norm_num [Constants.TICK_UNIT_INCREMENT, Constants.BOTTOM_ROW]),
   (claim_C7 { baseNote with position := 349, visual := false } rfl).2.1
      (by norm_num [Constants.TICK_UNIT_INCREMENT, Constants.BOTTOM_ROW]) rfl⟩

/-- Claim C9 (confirmed): `RandomiseNotes` changes at most the `column` field
of still-visual notes: every note keeps its id, tail, special flag, position
and visual status; non-visual notes are entirely unchanged; and the PRNG seed
advances exactly once per application. -/
theorem claim_C9 (rng : RNGModel) (s : State) :
    (RandomiseNotes.apply rng s).hash = rng.hash s.hash ∧
    List.Forall₂
      (fun n m => m.id = n.id ∧ m.tail = n.tail ∧ m.special = n.special ∧
        m.position = n.position ∧ m.visual = n.visual ∧
        (n.visual = false → m = n) ∧
        (n.visual = true → m = { n with column := m.column }))
      s.currentNotes (RandomiseNotes.apply rng s).currentNotes := by
  refine ⟨rfl, ?_⟩
  show List.Forall₂ _ s.currentNotes (mapWithIndex (randomTransform rng s.hash) 0 s.currentNotes)
  apply forall2_mapWithIndex
  intro i n
  unfold randomTransform
  by_cases hv : n.visual = true
  · rw [if_pos hv]
    refine ⟨rfl, rfl, rfl, rfl, rfl, ?_, fun _ => rfl⟩
    intro hf
    rw [hv] at hf
    cases hf
  · rw [if_neg hv]
    refine ⟨rfl, rfl, rfl, rfl, rfl, fun _ => rfl, ?_⟩
    intro hf
    exact absurd hf hv

/-- Claim C10 (confirmed): after the physics step of a tick, the combo counter
`noteCount` is reset to the previous `bonusActive` exactly when the updated
`currentNotes` contains a visual note one increment above the bottom row, and
is unchanged otherwise. -/
theorem claim_C10 (s : State) :
    ((∃ n ∈ (tick s).currentNotes, n.visual = true ∧
        n.position + 1 = Constants.BOTTOM_ROW) →
      (tick s).noteCount = s.bonusActive) ∧
    ((∀ n ∈ (tick s).currentNotes,
        ¬(n.visual = true ∧ n.position + 1 = Constants.BOTTOM_ROW)) →
      (tick s).noteCount = s.noteCount) := by
  have hnc : (tick s).noteCount =
      if ((tickResult s).1.filter filterCheck).length = 0
      then s.noteCount else s.bonusActive := rfl
  have hcur : (tick s).currentNotes = (tickResult s).1 := rfl
  constructor
  · rintro ⟨n, hn, hvis, hpos⟩
    rw [hnc, if_neg]
    intro hlen
    have hne : (tickResult s).1.filter filterCheck = [] := List.length_eq_zero.mp hlen
    have hmem : n ∈ (tickResult s).1.filter filterCheck := by
      rw [List.mem_filter]
      refine ⟨by rw [← hcur]; exact hn, ?_⟩
      unfold filterCheck
      simp [hvis, hpos]
    rw [hne] at hmem
    cases hmem
  · intro hall
    rw [hnc, if_pos]
    rw [List.length_eq_zero, List.filter_eq_nil_iff]
    intro a ha hpa
    have hcontra := hall a (by rw [hcur]; exact ha)
    unfold filterCheck at hpa
    simp only [Bool.and_eq_true, decide_eq_true_eq] at hpa
    exact hcontra ⟨hpa.2, hpa.1⟩

theorem claim_C10_witness :
    (tick missState).noteCount = missState.bonusActive ∧
    (tick (initialState rng0)).noteCount = (initialState rng0).noteCount :=
  ⟨(claim_C10 missState).1 (by
      norm_num [tick, tickResult, tickStep, updateNotePosition, missState, initialState, rng0,
        baseNote, Constants.BOTTOM_ROW, Constants.TICK_UNIT_INCREMENT]),
   (claim_C10 (initialState rng0)).2 (by
      norm_num [tick, tickResult, initialState, rng0])⟩

/-- Claim C8 (corrected): `RIPNotes` after a step equals the prior
`currentNotes` for the press, release, tick and end-of-chart actions; for
`NextNote` it additionally contains the freshly processed batch, and
`RandomiseNotes` leaves `RIPNotes` unchanged, so the claim as stated fails for
those two actions. -/
theorem claim_C8_amended (rng : RNGModel) (c : Nat) (notes : List Note) (s : State) :
    (ButtonClick.apply rng c s).RIPNotes = s.currentNotes ∧
    (ButtonRelease.apply c s).RIPNotes = s.currentNotes ∧
    (TickGame.apply s).RIPNotes = s.currentNotes ∧
    (GameEnd.apply s).RIPNotes = s.currentNotes ∧
    (NextNote.apply rng notes s).RIPNotes =
      s.currentNotes ++ notes.map (spawnTransform rng s.hash) ∧
    (RandomiseNotes.apply rng s).RIPNotes = s.RIPNotes :=
  ⟨rfl, rfl, rfl, rfl, rfl, rfl⟩

theorem claim_C8_counterexample :
    ¬((Action.randomise.apply rng0 oneNoteState).RIPNotes = oneNoteState.currentNotes) := by
  simp [Action.apply, RandomiseNotes.apply, oneNoteState, initialState, rng0]

theorem decayPeriod_eq : decayPeriod = 285 := by
  norm_num [decayPeriod, jsTrunc, Constants.TICK_RATE_MS]
  rfl

/-- Claim C3 (corrected): `TickGame` drains 50 from `bonusActive` and from the
post-physics `noteCount` and zeroes the decay counter exactly when
`bonusActive > 0` and `tickInterval` is a nonzero multiple of
`decayPeriod = ~~(2000 / TICK_RATE_MS)`; in every other case `bonusActive` is
unchanged while `tickInterval` increments by 1 only if `bonusActive > 0` and is
reset to 0 when `bonusActive ≤ 0`. -/
theorem claim_C3_amended (s : State) :
    (s.bonusActive > 0 → s.tickInterval ≠ 0 → decayPeriod ∣ s.tickInterval →
      (TickGame.apply s).bonusActive = s.bonusActive - 50 ∧
      (TickGame.apply s).noteCount = (tick s).noteCount - 50 ∧
      (TickGame.apply s).tickInterval = 0) ∧
    (¬(s.bonusActive > 0 ∧ s.tickInterval ≠ 0 ∧ decayPeriod ∣ s.tickInterval) →
      (TickGame.apply s).bonusActive = s.bonusActive ∧
      (TickGame.apply s).noteCount = (tick s).noteCount ∧
      (TickGame.apply s).tickInterval =
        if s.bonusActive > 0 then s.tickInterval + 1 else 0) := by
  have hdvd : decayPeriod ∣ s.tickInterval ↔ s.tickInterval % decayPeriod = 0 :=
    Nat.dvd_iff_mod_eq_zero
  constructor
  · intro h1 h2 h3
    have hmod := hdvd.mp h3
    simp only [TickGame.apply]
    simp [h1, h2, hmod]
  · intro hneg
    simp only [TickGame.apply]
    by_cases h1 : s.bonusActive > 0
    · have h23 : ¬(s.tickInterval ≠ 0 ∧ s.tickInterval % decayPeriod = 0) := by
        intro hx
        exact hneg ⟨h1, hx.1, hdvd.mpr hx.2⟩
      by_cases h2 : s.tickInterval = 0
      · simp [h1, h2]
      · have h3 : ¬(s.tickInterval % decayPeriod = 0) := fun hm => h23 ⟨h2, hm⟩
        simp [h1, h2, h3]
    · have h1f : ¬(s.bonusActive > 0) := h1
      simp [h1f]

theorem claim_C3_witness :
    (TickGame.apply decayDrainState).bonusActive = 50 ∧
    (TickGame.apply decayDrainState).noteCount = 150 ∧
    (TickGame.apply decayDrainState).tickInterval = 0 ∧
    (TickGame.apply decayIdleState).bonusActive = decayIdleState.bonusActive := by
  have h1 := (claim_C3_amended decayDrainState).1
    (by norm_num [decayDrainState, initialState, rng0])
    (by norm_num [decayDrainState, initialState, rng0])
    (by rw [decayPeriod_eq]; norm_num [decayDrainState, initialState, rng0])
  have h2 := (claim_C3_amended decayIdleState).2
    (by rintro ⟨hx, -, -⟩; norm_num [decayIdleState, initialState, rng0] at hx)
  refine ⟨?_, ?_, ?_, h2.1⟩
  · rw [h1.1]; norm_num [decayDrainState, initialState, rng0]
  · rw [h1.2.1]; norm_num [decayDrainState, initialState, rng0, tick, tickResult]
  · exact h1.2.2

theorem claim_C3_counterexample :
    ¬(decayIdleState.bonusActive > 0 ∧ decayIdleState.tickInterval ≠ 0 ∧
        decayPeriod ∣ decayIdleState.tickInterval) ∧
    (TickGame.apply decayIdleState).bonusActive = decayIdleState.bonusActive ∧
    (TickGame.apply decayIdleState).tickInterval ≠ decayIdleState.tickInterval + 1 := by
  refine ⟨?_, ?_, ?_⟩
  · rintro ⟨hx, -, -⟩
    norm_num [decayIdleState, initialState, rng0] at hx
  · norm_num [TickGame.apply, decayIdleState, initialState, rng0]
  · norm_num [TickGame.apply, decayIdleState, initialState, rng0]


/-- Claim C5 (corrected): `ButtonRelease(c)` marks dead every not-yet-dead
tail of column `c` on a consumed (non-visual) note, subtracts
`k * (1 + 0.2*floor(noteCount/10))` from the score and stores its truncation
toward zero (`k` the number of such tails), resets `noteCount` to
`bonusActive` when `k ≠ 0`, and leaves notes, score and combo unchanged when
`k = 0`. -/
theorem claim_C5_amended (c : Nat) (s : State) :
    (ButtonRelease.apply c s).scoreGained =
      jsTrunc ((s.scoreGained : Rat) -
        ((s.currentNotes.filter (releaseMatch c)).length : Rat) * releasePenalty s.noteCount) ∧
    ((s.currentNotes.filter (releaseMatch c)).length ≠ 0 →
      (ButtonRelease.apply c s).noteCount = s.bonusActive) ∧
    ((s.currentNotes.filter (releaseMatch c)).length = 0 →
      (ButtonRelease.apply c s).noteCount = s.noteCount ∧
      (ButtonRelease.apply c s).currentNotes = s.currentNotes ∧
      (ButtonRelease.apply c s).scoreGained = s.scoreGained) ∧
    (∀ m ∈ s.currentNotes, releaseMatch c m = true →
      markDead m ∈ (ButtonRelease.apply c s).currentNotes ∧
      ∀ t, m.tail = some t → (markDead m).tail = some { t with dead := true }) := by
  have hscore : (ButtonRelease.apply c s).scoreGained =
      jsTrunc ((s.scoreGained : Rat) -
        ((s.currentNotes.filter (releaseMatch c)).length : Rat) * releasePenalty s.noteCount) := by
    show jsTrunc (s.currentNotes.foldl
      (fun acc note =>
        if releaseMatch c note then acc - releasePenalty s.noteCount else acc)
      ((s.scoreGained : Rat))) = _
    rw [foldl_if_filter (releaseMatch c) (fun acc _ => acc - releasePenalty s.noteCount),
      foldl_const_sub]
  have hcount : (ButtonRelease.apply c s).noteCount =
      if (s.currentNotes.filter (releaseMatch c)).length = 0
      then s.noteCount else s.bonusActive := by
    show s.currentNotes.foldl
      (fun acc note => if releaseMatch c note then s.bonusActive else acc) s.noteCount = _
    rw [foldl_if_filter (releaseMatch c) (fun _ _ => s.bonusActive), foldl_const_set]
  refine ⟨hscore, ?_, ?_, ?_⟩
  · intro hne
    rw [hcount, if_neg hne]
  · intro hz
    have hall : ∀ x ∈ s.currentNotes, releaseMatch c x = false := by
      have := List.filter_eq_nil_iff.mp (List.length_eq_zero.mp hz)
      intro x hx
      exact Bool.not_eq_true _ ▸ Bool.eq_false_iff.mpr (this x hx)
    refine ⟨by rw [hcount, if_pos hz], ?_, ?_⟩
    · show s.currentNotes.map
        (fun note => if releaseMatch c note then markDead note else note) = s.currentNotes
      exact map_if_not (releaseMatch c) markDead s.currentNotes hall
    · rw [hscore, hz]
      norm_num [jsTrunc_intCast]
  · intro m hm hrel
    constructor
    · show markDead m ∈ s.currentNotes.map
        (fun note => if releaseMatch c note then markDead note else note)
      exact List.mem_map.mpr ⟨m, hm, by rw [if_pos hrel]⟩
    · intro t ht
      unfold markDead
      rw [ht]



theorem claim_C5_witness :
    (ButtonRelease.apply 0 liveTailState).scoreGained = 3 ∧
    (ButtonRelease.apply 0 liveTailState).noteCount = 77 ∧
    markDead liveTailNote ∈ (ButtonRelease.apply 0 liveTailState).currentNotes := by
  have h := claim_C5_amended 0 liveTailState
  refine ⟨?_, ?_, ?_⟩
  · rw [h.1]
    norm_num [liveTailState, liveTailNote, initialState, rng0, baseNote, releaseMatch,
      releasePenalty, jsTrunc]
  · exact h.2.1 (by
      norm_num [liveTailState, liveTailNote, initialState, rng0, baseNote, releaseMatch])
  · exact (h.2.2.2 liveTailNote (by norm_num [liveTailState, initialState, rng0])
      (by norm_num [releaseMatch, liveTailNote, baseNote])).1

theorem claim_C5_counterexample :
    liveTailState.currentNotes.filter (releaseMatch 0) = [liveTailNote] ∧
    ((ButtonRelease.apply 0 liveTailState).scoreGained : Rat) ≠
      (liveTailState.scoreGained : Rat) - releasePenalty liveTailState.noteCount := by
  constructor
  · norm_num [liveTailState, liveTailNote, initialState, rng0, baseNote, releaseMatch]
  · norm_num [ButtonRelease.apply, liveTailState, liveTailNote, initialState, rng0, baseNote,
      releaseMatch, releasePenalty, jsTrunc]


/-- Claim C2 (corrected): for a press on column c, each matched special note
adds 100 to both `bonusActive` and `noteCount` and contributes no score; each
matched normal note adds 1 to `noteCount` and adds exactly
`1 + 0.2 * ~~(comboCount/10)` (combo value before the increment, truncated
toward zero rather than floored) to a running fractional score accumulator
whose final value is truncated toward zero into `scoreGained`.  For any press
that matches at least one note, the resulting
(`bonusActive`, `noteCount`, `scoreGained`) is obtained by folding exactly
that per-note step (`specClickStep`, written from the claim's words) over the
matched notes in order and truncating the accumulated score; with
`comboCount = 0` a single normal-note hit increases `scoreGained` by exactly
1; and every matched note's `visual` flag becomes false. -/
theorem claim_C2_amended (rng : RNGModel) (c : Nat) (s : State) (n : Note) :
    (∀ m ∈ s.currentNotes, clickMatch c m = true →
      { m with visual := false } ∈ (ButtonClick.apply rng c s).currentNotes) ∧
    (s.currentNotes.filter (clickMatch c) ≠ [] →
      (ButtonClick.apply rng c s).bonusActive =
        ((s.currentNotes.filter (clickMatch c)).foldl specClickStep
          (s.bonusActive, s.noteCount, (s.scoreGained : Rat))).1 ∧
      (ButtonClick.apply rng c s).noteCount =
        ((s.currentNotes.filter (clickMatch c)).foldl specClickStep
          (s.bonusActive, s.noteCount, (s.scoreGained : Rat))).2.1 ∧
      (ButtonClick.apply rng c s).scoreGained =
        jsTrunc ((s.currentNotes.filter (clickMatch c)).foldl specClickStep
          (s.bonusActive, s.noteCount, (s.scoreGained : Rat))).2.2) ∧
    (s.currentNotes.filter (clickMatch c) = [n] →
      (n.special = true →
        (ButtonClick.apply rng c s).bonusActive = s.bonusActive + 100 ∧
        (ButtonClick.apply rng c s).noteCount = s.noteCount + 100 ∧
        (ButtonClick.apply rng c s).scoreGained = s.scoreGained) ∧
      (n.special = false →
        (ButtonClick.apply rng c s).bonusActive = s.bonusActive ∧
        (ButtonClick.apply rng c s).noteCount = s.noteCount + 1 ∧
        (ButtonClick.apply rng c s).scoreGained =
          jsTrunc ((s.scoreGained : Rat) +
            (1 + (1 / 5) * ((jsTrunc ((s.noteCount : Rat) / 10) : Int) : Rat)))) ∧
      (n.special = false → s.noteCount = 0 →
        (ButtonClick.apply rng c s).scoreGained = s.scoreGained + 1)) := by
  refine ⟨?_, ?_, ?_⟩
  · intro m hm hcm
    show { m with visual := false } ∈ s.currentNotes.map
      (fun note => if clickMatch c note then { note with visual := false } else note)
    exact List.mem_map.mpr ⟨m, hm, by rw [if_pos hcm]⟩
  · intro hne
    have htrig := clickScan_triggered_of_match c s hne
    have hspec := foldl_clickInner_spec (s.currentNotes.filter (clickMatch c))
      { triggered := false
        scoreGained := (s.scoreGained : Rat)
        notePressed := s.noteCount
        specialGained := s.bonusActive }
    have hbon : (ButtonClick.apply rng c s).bonusActive = (clickScan c s).specialGained := rfl
    have hsc : (ButtonClick.apply rng c s).scoreGained =
        jsTrunc (clickScan c s).scoreGained := rfl
    have hnc : (ButtonClick.apply rng c s).noteCount = (clickScan c s).notePressed := by
      show (if ((!(clickScan c s).triggered) &&
          decide (((s.currentNotes.map
            (fun note => if clickMatch c note then { note with visual := false } else note)).filter
              (sustainBlock c)).length = 0)) = true
        then s.bonusActive else (clickScan c s).notePressed) = _
      rw [htrig]
      simp
    refine ⟨?_, ?_, ?_⟩
    · rw [hbon, clickScan_eq]
      exact congrArg Prod.fst hspec
    · rw [hnc, clickScan_eq]
      exact congrArg (fun p => p.2.1) hspec
    · rw [hsc, clickScan_eq]
      exact congrArg (fun p => jsTrunc p.2.2) hspec
  · intro hf
    have hscan : clickScan c s = clickInner
        { triggered := false
          scoreGained := (s.scoreGained : Rat)
          notePressed := s.noteCount
          specialGained := s.bonusActive } n := by
      rw [clickScan_eq, hf]
      rfl
    have htrig : (clickScan c s).triggered = true := by
      rw [hscan]
      exact clickInner_triggered _ n
    have hbon : (ButtonClick.apply rng c s).bonusActive = (clickScan c s).specialGained := rfl
    have hsc : (ButtonClick.apply rng c s).scoreGained = jsTrunc (clickScan c s).scoreGained :=
      rfl
    have hnc : (ButtonClick.apply rng c s).noteCount = (clickScan c s).notePressed := by
      show (if ((!(clickScan c s).triggered) &&
          decide (((s.currentNotes.map
            (fun note => if clickMatch c note then { note with visual := false } else note)).filter
              (sustainBlock c)).length = 0)) = true
        then s.bonusActive else (clickScan c s).notePressed) = _
      rw [htrig]
      simp
    by_cases hsp : n.special = true
    · have hin : clickInner
          { triggered := false
            scoreGained := (s.scoreGained : Rat)
            notePressed := s.noteCount
            specialGained := s.bonusActive } n =
          { triggered := true
            scoreGained := (s.scoreGained : Rat)
            notePressed := s.noteCount + 100
            specialGained := s.bonusActive + 100 } := by
        unfold clickInner
        rw [if_pos hsp]
      refine ⟨fun _ => ⟨?_, ?_, ?_⟩, fun hns => absurd hsp (by rw [hns]; simp), fun hns => absurd hsp (by rw [hns]; simp)⟩
      · rw [hbon, hscan, hin]
      · rw [hnc, hscan, hin]
      · rw [hsc, hscan, hin]
        exact jsTrunc_intCast s.scoreGained
    · have hspf : n.special = false := by
        cases hx : n.special
        · rfl
        · exact absurd hx hsp
      have hin : clickInner
          { triggered := false
            scoreGained := (s.scoreGained : Rat)
            notePressed := s.noteCount
            specialGained := s.bonusActive } n =
          { triggered := true
            scoreGained := (s.scoreGained : Rat) +
              (1 + (1 / 5) * ((jsTrunc ((s.noteCount : Rat) / 10) : Int) : Rat))
            notePressed := s.noteCount + 1
            specialGained := s.bonusActive } := by
        unfold clickInner
        rw [if_neg (by rw [hspf]; simp)]
      refine ⟨fun hx => absurd hx hsp, fun _ => ⟨?_, ?_, ?_⟩, fun _ hn0 => ?_⟩
      · rw [hbon, hscan, hin]
      · rw [hnc, hscan, hin]
      · rw [hsc, hscan, hin]
      · rw [hsc, hscan, hin, hn0]
        have : ((s.scoreGained : Rat) +
            (1 + (1 / 5) * ((jsTrunc (((0 : Int) : Rat) / 10) : Int) : Rat))) =
            (((s.scoreGained + 1 : Int)) : Rat) := by
          norm_num [jsTrunc]
        rw [this, jsTrunc_intCast]



theorem claim_C2_witness :
    oneNoteState.currentNotes.filter (clickMatch 0) = [hitNote] ∧
    { hitNote with visual := false } ∈ (ButtonClick.apply rng0 0 oneNoteState).currentNotes ∧
    (ButtonClick.apply rng0 0 oneNoteState).scoreGained = oneNoteState.scoreGained + 1 ∧
    (ButtonClick.apply rng0 0 twoNoteState).noteCount = 2 ∧
    (ButtonClick.apply rng0 0 twoNoteState).scoreGained = 2 := by
  have hf : oneNoteState.currentNotes.filter (clickMatch 0) = [hitNote] := by
    norm_num [oneNoteState, initialState, rng0, hitNote, baseNote, clickMatch,
      Constants.BOTTOM_ROW, Constants.POSITION_THRESHOLD]
  have h := claim_C2_amended rng0 0 oneNoteState hitNote
  have h2 := (claim_C2_amended rng0 0 twoNoteState hitNote).2.1 (by
    norm_num [twoNoteState, initialState, rng0, hitNote, hitNote2, baseNote, clickMatch,
      Constants.BOTTOM_ROW, Constants.POSITION_THRESHOLD]
    exact List.cons_ne_nil _ _)
  refine ⟨hf,
    h.1 hitNote (by norm_num [oneNoteState, initialState, rng0])
      (by norm_num [clickMatch, hitNote, baseNote, Constants.BOTTOM_ROW,
        Constants.POSITION_THRESHOLD]),
    (h.2.2 hf).2.2 rfl rfl, ?_, ?_⟩
  · rw [h2.2.1]
    norm_num [twoNoteState, initialState, rng0, hitNote, hitNote2, baseNote, clickMatch,
      specClickStep, jsTrunc, Constants.BOTTOM_ROW, Constants.POSITION_THRESHOLD]
  · rw [h2.2.2]
    norm_num [twoNoteState, initialState, rng0, hitNote, hitNote2, baseNote, clickMatch,
      specClickStep, jsTrunc, Constants.BOTTOM_ROW, Constants.POSITION_THRESHOLD]

theorem claim_C2_counterexample :
    comboTenState.currentNotes.filter (clickMatch 0) = [hitNote] ∧
    hitNote.special = false ∧
    ((ButtonClick.apply rng0 0 comboTenState).scoreGained : Rat) ≠
      (comboTenState.scoreGained : Rat) +
        (1 + (1 / 5) * ((Int.floor ((comboTenState.noteCount : Rat) / 10) : Int) : Rat)) := by
  refine ⟨?_, rfl, ?_⟩
  · norm_num [comboTenState, oneNoteState, initialState, rng0, hitNote, baseNote, clickMatch,
      Constants.BOTTOM_ROW, Constants.POSITION_THRESHOLD]
  · norm_num [ButtonClick.apply, clickScan, clickInner, clickMatch, sustainBlock,
      comboTenState, oneNoteState, initialState, rng0, hitNote, baseNote, jsTrunc,
      Constants.BOTTOM_ROW, Constants.POSITION_THRESHOLD]


/-- Claim C4 (corrected): the PRNG seed advances on every ButtonClick; if no
visual note of column c lies in the hit window and no non-visual tailed note
(whether or not its tail is dead) exists in column c, exactly one synthetic
PRNG-generated note is appended to `playableNotes` and `noteCount` is reset to
`bonusActive`; if any non-visual tailed note of column c exists — in
particular any live sustaining tail — no synthetic note is appended. -/
theorem claim_C4_amended (rng : RNGModel) (c : Nat) (s : State) :
    (ButtonClick.apply rng c s).hash = rng.hash s.hash ∧
    ((∀ n ∈ s.currentNotes, clickMatch c n = false) →
     (∀ n ∈ s.currentNotes, sustainBlock c n = false) →
      (ButtonClick.apply rng c s).playableNotes =
        s.playableNotes ++ [wrongNote rng s.hash] ∧
      (ButtonClick.apply rng c s).noteCount = s.bonusActive) ∧
    ((∃ n ∈ s.currentNotes, sustainBlock c n = true) →
      (ButtonClick.apply rng c s).playableNotes = s.playableNotes) := by
  have hplay : (ButtonClick.apply rng c s).playableNotes =
      if ((!(clickScan c s).triggered) &&
          decide (((s.currentNotes.map
            (fun note => if clickMatch c note then { note with visual := false } else note)).filter
              (sustainBlock c)).length = 0)) = true
      then s.playableNotes ++ [wrongNote rng s.hash] else s.playableNotes := rfl
  have hnc : (ButtonClick.apply rng c s).noteCount =
      if ((!(clickScan c s).triggered) &&
          decide (((s.currentNotes.map
            (fun note => if clickMatch c note then { note with visual := false } else note)).filter
              (sustainBlock c)).length = 0)) = true
      then s.bonusActive else (clickScan c s).notePressed := rfl
  refine ⟨rfl, ?_, ?_⟩
  · intro h1 h2
    have hfil : s.currentNotes.filter (clickMatch c) = [] :=
      List.filter_eq_nil_iff.mpr (fun a ha => by simp [h1 a ha])
    have htrig : (clickScan c s).triggered = false := by
      rw [clickScan_eq, hfil]
      rfl
    have hmapid : s.currentNotes.map
        (fun note => if clickMatch c note then { note with visual := false } else note) =
        s.currentNotes :=
      map_if_not _ _ _ h1
    have hfil2 : s.currentNotes.filter (sustainBlock c) = [] :=
      List.filter_eq_nil_iff.mpr (fun a ha => by simp [h2 a ha])
    constructor
    · rw [hplay, htrig, hmapid, hfil2]
      simp
    · rw [hnc, htrig, hmapid, hfil2]
      simp
  · rintro ⟨n, hn, hb⟩
    have hvis : n.visual = false := by
      unfold sustainBlock at hb
      simp only [Bool.and_eq_true, Bool.not_eq_true'] at hb
      exact hb.1.2
    have hcm : clickMatch c n = false := clickMatch_false_of_not_visual c n hvis
    have hmem : n ∈ s.currentNotes.map
        (fun note => if clickMatch c note then { note with visual := false } else note) :=
      List.mem_map.mpr ⟨n, hn, by simp [hcm]⟩
    have hne : ((s.currentNotes.map
        (fun note => if clickMatch c note then { note with visual := false } else note)).filter
          (sustainBlock c)).length ≠ 0 := by
      intro hz
      have hmemf : n ∈ (s.currentNotes.map
          (fun note => if clickMatch c note then { note with visual := false } else note)).filter
            (sustainBlock c) := List.mem_filter.mpr ⟨hmem, hb⟩
      rw [List.length_eq_zero.mp hz] at hmemf
      cases hmemf
    rw [hplay]
    have hcond : ((!(clickScan c s).triggered) &&
        decide (((s.currentNotes.map
          (fun note => if clickMatch c note then { note with visual := false } else note)).filter
            (sustainBlock c)).length = 0)) = false := by
      simp [hne]
    rw [hcond]
    simp



theorem claim_C4_witness :
    (ButtonClick.apply rng0 0 (initialState rng0)).hash = rng0.hash (initialState rng0).hash ∧
    (ButtonClick.apply rng0 0 (initialState rng0)).playableNotes =
      (initialState rng0).playableNotes ++ [wrongNote rng0 (initialState rng0).hash] ∧
    (ButtonClick.apply rng0 0 (initialState rng0)).noteCount = (initialState rng0).bonusActive ∧
    (ButtonClick.apply rng0 0 deadTailState).playableNotes = deadTailState.playableNotes := by
  have h1 := claim_C4_amended rng0 0 (initialState rng0)
  have h2 := claim_C4_amended rng0 0 deadTailState
  have hx := h1.2.1 (fun n hn => by simp [initialState] at hn)
    (fun n hn => by simp [initialState] at hn)
  exact ⟨h1.1, hx.1, hx.2,
    h2.2.2 ⟨deadTailNote, by simp [deadTailState, initialState],
      by simp [sustainBlock, deadTailNote, baseNote]⟩⟩

theorem claim_C4_counterexample :
    (∀ n ∈ deadTailState.currentNotes, clickMatch 0 n = false) ∧
    (∀ n ∈ deadTailState.currentNotes, releaseMatch 0 n = false) ∧
    (ButtonClick.apply rng0 0 deadTailState).playableNotes = [] := by
  refine ⟨?_, ?_, ?_⟩
  · intro n hn
    simp only [deadTailState, initialState] at hn
    rw [List.mem_singleton.mp hn]
    simp [clickMatch, deadTailNote, baseNote]
  · intro n hn
    simp only [deadTailState, initialState] at hn
    rw [List.mem_singleton.mp hn]
    simp [releaseMatch, deadTailNote, baseNote]
  · norm_num [ButtonClick.apply, clickScan, clickInner, clickMatch, sustainBlock,
      deadTailState, deadTailNote, initialState, rng0, baseNote,
      Constants.BOTTOM_ROW, Constants.POSITION_THRESHOLD]


theorem tail_none_of_not_isSome (o : Option Tail) (h : ¬(o.isSome = true)) : o = none := by
  cases o
  · rfl
  · exact absurd rfl h

/-- Claim C6 (corrected): in a spawned batch a note gets a defined tail
exactly when it is visual AND its chart duration exceeds 1000ms, the tail
satisfying tailEnd - tailStart = duration / TICK_RATE_MS and dead = false;
every other batch note gets tail = none and special := (~~(scale(hash)*100) >=
90), a condition holding on exactly 10 of the 100 possible percent buckets;
and no action ever creates a tail: a tailed note in a post-state stems from a
tailed note with the same id in the pre-state or from the NextNote sustain
branch. -/
theorem claim_C6_amended (rng : RNGModel) (h : Nat) (n : Note) (a : Action) (s : State) :
    (n.visual = true → n.«end» - n.start > 1000 →
      (spawnTransform rng h n).tail =
        some { tailStart := n.position - (n.«end» - n.start) / Constants.TICK_RATE_MS
               tailEnd := n.position
               dead := false } ∧
      (∀ t, (spawnTransform rng h n).tail = some t →
        t.tailEnd - t.tailStart = (n.«end» - n.start) / Constants.TICK_RATE_MS)) ∧
    (¬(n.visual = true ∧ n.«end» - n.start > 1000) →
      (spawnTransform rng h n).tail = none ∧
      ((spawnTransform rng h n).special = true ↔
        jsTrunc (rng.scale h * 100) ≥ Constants.BONUS_NOTES_PERCENTAGE)) ∧
    ((Finset.range 100).filter
        (fun v : Nat => Constants.BONUS_NOTES_PERCENTAGE ≤ (v : Int))).card * 10 =
      (Finset.range 100).card ∧
    (∀ m ∈ (a.apply rng s).currentNotes, m.tail.isSome = true →
      (∃ p ∈ s.currentNotes, p.id = m.id ∧ p.tail.isSome = true) ∨
      (∃ notes, a = Action.nextNote notes ∧
        ∃ p ∈ notes, p.id = m.id ∧ p.visual = true ∧ p.«end» - p.start > 1000)) := by
  refine ⟨?_, ?_, by decide, ?_⟩
  · intro hv hd
    have ht : (spawnTransform rng h n).tail =
        some { tailStart := n.position - (n.«end» - n.start) / Constants.TICK_RATE_MS
               tailEnd := n.position
               dead := false } := by
      unfold spawnTransform
      rw [if_pos (by simp [hv, hd])]
    refine ⟨ht, ?_⟩
    intro t htt
    rw [ht] at htt
    rw [← Option.some.inj htt]
    ring
  · intro hno
    have hc : ¬((n.visual && decide (n.«end» - n.start > 1000)) = true) := by
      intro hcc
      simp only [Bool.and_eq_true, decide_eq_true_eq] at hcc
      exact hno hcc
    constructor
    · unfold spawnTransform
      rw [if_neg hc]
    · unfold spawnTransform
      rw [if_neg hc]
      simp [decide_eq_true_eq]
  · intro m hm hms
    cases a with
    | click c =>
        left
        replace hm : m ∈ s.currentNotes.map
            (fun note => if clickMatch c note then { note with visual := false } else note) := hm
        rcases List.mem_map.mp hm with ⟨p, hp, himg⟩
        by_cases hcm : clickMatch c p = true
        · rw [if_pos hcm] at himg
          refine ⟨p, hp, by rw [← himg], ?_⟩
          rw [← himg] at hms
          exact hms
        · rw [if_neg hcm] at himg
          subst himg
          exact ⟨p, hp, rfl, hms⟩
    | release c =>
        left
        replace hm : m ∈ s.currentNotes.map
            (fun note => if releaseMatch c note then markDead note else note) := hm
        rcases List.mem_map.mp hm with ⟨p, hp, himg⟩
        by_cases hrm : releaseMatch c p = true
        · rw [if_pos hrm] at himg
          refine ⟨p, hp, by rw [← himg, markDead_id], ?_⟩
          rw [← himg, markDead_tail_isSome] at hms
          exact hms
        · rw [if_neg hrm] at himg
          subst himg
          exact ⟨p, hp, rfl, hms⟩
    | tickGame =>
        left
        replace hm : m ∈ (tick s).currentNotes := hm
        rw [tick_currentNotes] at hm
        rcases List.mem_filterMap.mp hm with ⟨p, hp, hupd⟩
        have hk := updateNotePosition_fst_keeps _ _ _ _ hupd
        refine ⟨p, hp, hk.1.symm, ?_⟩
        by_contra hcon
        rw [hk.2 (tail_none_of_not_isSome _ hcon)] at hms
        cases hms
    | gameEnd =>
        left
        replace hm : m ∈ (tick { s with allNotesProcessed := true }).currentNotes := hm
        rw [tick_currentNotes] at hm
        rcases List.mem_filterMap.mp hm with ⟨p, hp, hupd⟩
        have hk := updateNotePosition_fst_keeps _ _ _ _ hupd
        refine ⟨p, hp, hk.1.symm, ?_⟩
        by_contra hcon
        rw [hk.2 (tail_none_of_not_isSome _ hcon)] at hms
        cases hms
    | nextNote notes =>
        replace hm : m ∈ (tick { s with
            hash := rng.hash s.hash
            currentNotes := s.currentNotes ++ notes.map (spawnTransform rng s.hash) }).currentNotes :=
          hm
        rw [tick_currentNotes] at hm
        rcases List.mem_filterMap.mp hm with ⟨p, hp, hupd⟩
        have hk := updateNotePosition_fst_keeps _ _ _ _ hupd
        have hpsome : p.tail.isSome = true := by
          by_contra hcon
          rw [hk.2 (tail_none_of_not_isSome _ hcon)] at hms
          cases hms
        rcases List.mem_append.mp hp with hleft | hright
        · exact Or.inl ⟨p, hleft, hk.1.symm, hpsome⟩
        · rcases List.mem_map.mp hright with ⟨q, hq, himg⟩
          right
          have hqv := spawnTransform_tail_isSome rng s.hash q (by rw [himg]; exact hpsome)
          refine ⟨notes, rfl, q, hq, ?_, hqv.1, hqv.2⟩
          rw [hk.1, ← himg, spawnTransform_id]
    | randomise =>
        left
        replace hm : m ∈ mapWithIndex (randomTransform rng s.hash) 0 s.currentNotes := hm
        rcases mem_mapWithIndex _ _ _ _ hm with ⟨p, hp, j, hj⟩
        refine ⟨p, hp, by rw [hj, randomTransform_id], ?_⟩
        rw [hj, randomTransform_tail] at hms
        exact hms



theorem claim_C6_witness :
    (spawnTransform rng0 0 longVisNote).tail =
      some { tailStart := longVisNote.position -
               (longVisNote.«end» - longVisNote.start) / Constants.TICK_RATE_MS
             tailEnd := longVisNote.position
             dead := false } ∧
    (∀ t, (spawnTransform rng0 0 longVisNote).tail = some t →
      t.tailEnd - t.tailStart = (longVisNote.«end» - longVisNote.start) / Constants.TICK_RATE_MS) ∧
    (spawnTransform rng0 0 { baseNote with «end» := 500 }).tail = none := by
  have h1 := (claim_C6_amended rng0 0 longVisNote Action.tickGame (initialState rng0)).1 rfl
    (by norm_num [longVisNote, baseNote])
  have h2 := (claim_C6_amended rng0 0 { baseNote with «end» := 500 } Action.tickGame
      (initialState rng0)).2.1 (by rintro ⟨-, hd⟩; norm_num [baseNote] at hd)
  exact ⟨h1.1, h1.2, h2.1⟩

theorem claim_C6_counterexample :
    longBgNote.«end» - longBgNote.start > 1000 ∧
    (NextNote.apply rng0 [longBgNote] (initialState rng0)).currentNotes.length = 1 ∧
    (∀ m ∈ (NextNote.apply rng0 [longBgNote] (initialState rng0)).currentNotes,
      m.tail = none) := by
  refine ⟨by norm_num [longBgNote, baseNote], ?_, ?_⟩
  · norm_num [NextNote.apply, spawnTransform, tick, tickResult, tickStep, updateNotePosition,
      longBgNote, baseNote, initialState, rng0, jsTrunc, Constants.BOTTOM_ROW,
      Constants.TICK_UNIT_INCREMENT, Constants.BONUS_NOTES_PERCENTAGE]
  · intro m hm
    norm_num [NextNote.apply, spawnTransform, tick, tickResult, tickStep, updateNotePosition,
      longBgNote, baseNote, initialState, rng0, jsTrunc, Constants.BOTTOM_ROW,
      Constants.TICK_UNIT_INCREMENT, Constants.BONUS_NOTES_PERCENTAGE] at hm
    rw [hm]


theorem inv_step (rng : RNGModel) (a : Action) (s : State) (hInv : Inv s)
    (hEnd : s.gameEnd = false) (hOk : spawnOk a) : Inv (a.apply rng s) := by
  cases a with
  | click c =>
      constructor
      · intro h
        have hcur : s.currentNotes = [] := h
        show s.currentNotes.map
          (fun note => if clickMatch c note then { note with visual := false } else note) = []
        rw [hcur]
        rfl
      · intro h
        have hx : s.gameEnd = true := h
        rw [hEnd] at hx
        exact Bool.noConfusion hx
  | release c =>
      constructor
      · intro h
        have hcur : s.currentNotes = [] := h
        show s.currentNotes.map
          (fun note => if releaseMatch c note then markDead note else note) = []
        rw [hcur]
        rfl
      · intro h
        have hx : s.gameEnd = true := h
        rw [hEnd] at hx
        exact Bool.noConfusion hx
  | randomise =>
      constructor
      · intro h
        have hrip : s.RIPNotes = [] := h
        have hcur := hInv.1 hrip
        show mapWithIndex (randomTransform rng s.hash) 0 s.currentNotes = []
        rw [hcur]
        rfl
      · intro h
        have hx : s.gameEnd = true := h
        rw [hEnd] at hx
        exact Bool.noConfusion hx
  | tickGame =>
      constructor
      · intro h
        have hcur : s.currentNotes = [] := h
        exact (tick_of_nil s hcur).1
      · intro h
        have hg : (tick s).gameEnd = true := h
        obtain ⟨hall, hcur, hplay, hrip⟩ := tick_gameEnd_eq_true s hg
        exact ⟨hall, hcur, hplay, hInv.1 hrip⟩
  | gameEnd =>
      constructor
      · intro h
        have hcur : s.currentNotes = [] := h
        exact (tick_of_nil { s with allNotesProcessed := true } hcur).1
      · intro h
        have hg : (tick { s with allNotesProcessed := true }).gameEnd = true := h
        obtain ⟨hall, hcur, hplay, hrip⟩ :=
          tick_gameEnd_eq_true { s with allNotesProcessed := true } hg
        exact ⟨hall, hcur, hplay, hInv.1 hrip⟩
  | nextNote notes =>
      constructor
      · intro h
        have hcur : s.currentNotes ++ notes.map (spawnTransform rng s.hash) = [] := h
        exact (tick_of_nil { s with
          hash := rng.hash s.hash
          currentNotes := s.currentNotes ++ notes.map (spawnTransform rng s.hash) } hcur).1
      · intro h
        have hg : (tick { s with
            hash := rng.hash s.hash
            currentNotes := s.currentNotes ++ notes.map (spawnTransform rng s.hash) }).gameEnd =
            true := h
        obtain ⟨hall, hcur, hplay, hrip⟩ := tick_gameEnd_eq_true _ hg
        have hsc : s.currentNotes = [] := hInv.1 hrip
        refine ⟨hall, hcur, hplay, ?_⟩
        show s.currentNotes ++ notes.map (spawnTransform rng s.hash) = []
        rcases hnn : notes with _ | ⟨q, qs⟩
        · rw [hsc]
          rfl
        · exfalso
          rcases spawn_survives rng s.hash q (hOk q (by rw [hnn]; simp)) with ⟨m, hm⟩
          have hmem2 : m ∈ (tick { s with
              hash := rng.hash s.hash
              currentNotes := s.currentNotes ++
                notes.map (spawnTransform rng s.hash) }).currentNotes := by
            rw [tick_currentNotes]
            refine List.mem_filterMap.mpr ⟨spawnTransform rng s.hash q, ?_, hm⟩
            show spawnTransform rng s.hash q ∈
              s.currentNotes ++ notes.map (spawnTransform rng s.hash)
            rw [hsc, hnn]
            simp
          rw [hcur] at hmem2
          cases hmem2

theorem reachableGame_inv (rng : RNGModel) (s : State) (h : ReachableGame rng s) : Inv s := by
  induction h with
  | init => exact ⟨fun _ => rfl, fun hx => Bool.noConfusion hx⟩
  | step a hr hEnd hOk ih => exact inv_step rng a _ ih hEnd hOk

/-- Claim C1 (corrected): for every state reachable by a game run — actions
applied only while `gameEnd` is false and every `NextNote` batch made of
fresh chart notes at position 0 — if `gameEnd` is true then
`allNotesProcessed` is true and `currentNotes`, `playableNotes` and
`RIPNotes` are all empty. -/
theorem claim_C1_amended (rng : RNGModel) (s : State) (h : ReachableGame rng s)
    (hEnd : s.gameEnd = true) :
    s.allNotesProcessed = true ∧ s.currentNotes = [] ∧ s.playableNotes = [] ∧
      s.RIPNotes = [] :=
  (reachableGame_inv rng s h).2 hEnd

theorem claim_C1_witness :
    (GameEnd.apply (initialState rng0)).gameEnd = true ∧
    (GameEnd.apply (initialState rng0)).allNotesProcessed = true ∧
    (GameEnd.apply (initialState rng0)).currentNotes = [] ∧
    (GameEnd.apply (initialState rng0)).playableNotes = [] ∧
    (GameEnd.apply (initialState rng0)).RIPNotes = [] := by
  have hreach : ReachableGame rng0 (Action.gameEnd.apply rng0 (initialState rng0)) :=
    ReachableGame.step Action.gameEnd ReachableGame.init rfl trivial
  have hend : (Action.gameEnd.apply rng0 (initialState rng0)).gameEnd = true := rfl
  have h := claim_C1_amended rng0 _ hreach hend
  exact ⟨hend, h.1, h.2.1, h.2.2.1, h.2.2.2⟩

theorem claim_C1_counterexample :
    ReachableAny rng0 ((Action.click 0).apply rng0
      (Action.gameEnd.apply rng0 (initialState rng0))) ∧
    ((Action.click 0).apply rng0 (Action.gameEnd.apply rng0 (initialState rng0))).gameEnd =
      true ∧
    ((Action.click 0).apply rng0
      (Action.gameEnd.apply rng0 (initialState rng0))).playableNotes ≠ [] := by
  refine ⟨ReachableAny.step _ (ReachableAny.step _ ReachableAny.init), rfl, ?_⟩
  show (initialState rng0).playableNotes ++ [wrongNote rng0 (initialState rng0).hash] ≠ []
  simp

end HeroGuitar
